import Mathlib

/-!
Verification of the SSEA-REPORT job-pipeline / progress-streaming subsystem.

The source under scrutiny is the React frontend
(`frontend/src/services/cacheService.ts` bundled into
`frontend/src/components/ProcessingStatus.tsx`, `frontend/src/App.tsx`,
`frontend/src/components/FileUpload.tsx`).  Pure functions are translated
directly; the `localStorage` backing store is an `Option String` together with
an abstract JSON decoder; the server-side Job Store / Broadcaster, whose code
is not part of the repository snapshot, is modelled from the specification
(each such definition is marked `Modelled from the spec:`).
-/

namespace SSEA

/-! ## History Cache data model (cacheService.ts, `CachedReport`) -/

/-- `CachedReport.stats` — summary counts captured at completion. -/
structure SummaryStats where
  totalRows : Nat
  cleanedRows : Nat
  duplicatesRemoved : Nat
  domesticSources : Nat
  foreignSources : Nat
deriving DecidableEq, Repr

/-- `CachedReport` (cacheService.ts).  `uploadId` is the job identifier. -/
structure CachedReport where
  id : String
  uploadId : Nat
  filename : String
  uploadTime : String
  completedTime : String
  fileSize : Nat
  stats : SummaryStats
deriving DecidableEq, Repr

/-- `MAX_CACHE_SIZE = 50` (cacheService.ts). -/
def MAX_CACHE_SIZE : Nat := 50

/-- JavaScript `Array.prototype.findIndex`, with `none` standing for the
sentinel `-1`: index of the first element satisfying `p`. -/
def findIndexAux? (p : α → Bool) : List α → Option Nat
  | [] => none
  | x :: xs => if p x then some 0 else (findIndexAux? p xs).map (· + 1)

/-- JavaScript `String.prototype.endsWith`, modelled on the character list. -/
def strEndsWith (s suffix : String) : Bool :=
  List.isSuffixOf suffix.data s.data

namespace CacheService

/-- `CacheService.getCachedReports`: reads `localStorage[CACHE_KEY]`
(modelled as `store : Option String`) and parses it with `JSON.parse`
(modelled as the abstract `decode`; `decode s = none` is a parse throw,
caught and turned into `[]`).  A falsy cached value (absent key or empty
string) also yields `[]`. -/
def getCachedReports (store : Option String)
    (decode : String → Option (List CachedReport)) : List CachedReport :=
  match store with
  | none => []
  | some cached =>
      if cached = "" then []
      else
        match decode cached with
        | some reports => reports
        | none => []

/-- `CacheService.addReport`, the pure transform between the
`getCachedReports()` load and the `saveCachedReports` store: replace in
place when an entry with the same `uploadId` exists (`findIndex` ≠ -1),
otherwise `unshift` the new report and `splice(MAX_CACHE_SIZE)` when the
length exceeds the capacity. -/
def addReport (reports : List CachedReport) (report : CachedReport) :
    List CachedReport :=
  match findIndexAux? (fun r => r.uploadId == report.uploadId) reports with
  | some existingIndex => reports.set existingIndex report
  | none =>
      let reports2 := report :: reports
      if MAX_CACHE_SIZE < reports2.length then reports2.take MAX_CACHE_SIZE
      else reports2

/-- `CacheService.getReports`: returns the parsed cache. -/
def getReports (store : Option String)
    (decode : String → Option (List CachedReport)) : List CachedReport :=
  getCachedReports store decode

/-- `CacheService.getReport`: first cached entry with the given `uploadId`. -/
def getReport (store : Option String)
    (decode : String → Option (List CachedReport)) (uploadId : Nat) :
    Option CachedReport :=
  (getCachedReports store decode).find? (fun r => r.uploadId == uploadId)

/-- `CacheService.getRecentReports`: `slice(0, limit)` of the cache. -/
def getRecentReports (store : Option String)
    (decode : String → Option (List CachedReport)) (limit : Nat) :
    List CachedReport :=
  (getCachedReports store decode).take limit

/-- `CacheService.getRecentReports` at its default argument `limit = 10`. -/
def getRecentReportsDefault (store : Option String)
    (decode : String → Option (List CachedReport)) : List CachedReport :=
  getRecentReports store decode 10

/-- `CacheService.removeReport`, the pure transform between load and save:
keep the entries whose `uploadId` differs. -/
def removeReport (reports : List CachedReport) (uploadId : Nat) :
    List CachedReport :=
  reports.filter (fun r => r.uploadId != uploadId)

/-- `CacheService.clearCache`: removes the `localStorage` key. -/
def clearCache (_store : Option String) : Option String :=
  none

end CacheService

/-! ## File intake (FileUpload.tsx) -/

/-- A dropped file: its `name` and MIME `type`. -/
structure UploadFile where
  name : String
  type : String
deriving DecidableEq, Repr

/-- The `FileUpload` component state: `selectedFile`, `showConfirm`, plus the
validation alerts shown so far (`alert(...)` calls). -/
structure FileUploadState where
  selectedFile : Option UploadFile
  showConfirm : Bool
  alerts : List String
deriving DecidableEq, Repr

/-- Initial `FileUpload` component state (`useState(null)`, `useState(false)`). -/
def initialFileUploadState : FileUploadState :=
  { selectedFile := none, showConfirm := false, alerts := [] }

/-- `onDrop` (FileUpload.tsx): with at least one accepted file, select it and
show the confirmation dialog when it is a CSV
(`file.type === 'text/csv' || file.name.endsWith('.csv')`), otherwise raise
the validation alert and leave the selection untouched. -/
def onDrop (acceptedFiles : List UploadFile) (s : FileUploadState) :
    FileUploadState :=
  match acceptedFiles with
  | [] => s
  | file :: _ =>
      if file.type == "text/csv" || strEndsWith file.name ".csv" then
        { s with selectedFile := some file, showConfirm := true }
      else
        { s with alerts := s.alerts ++ ["请上传CSV格式的文件"] }

/-- `handleConfirmUpload` (FileUpload.tsx): invokes `onFileUpload` — the
upload operation that creates the server-side job — exactly when a file is
selected; `uploads` records the files for which the upload operation was
invoked. -/
def handleConfirmUpload (s : FileUploadState) (uploads : List UploadFile) :
    FileUploadState × List UploadFile :=
  match s.selectedFile with
  | some file =>
      ({ s with showConfirm := false, selectedFile := none },
        uploads ++ [file])
  | none => (s, uploads)

/-! ## Step-status derivation (ProcessingStatus.tsx, `getStepStatus`) -/

/-- The five pipeline step ids of the `steps` array. -/
def steps : List String :=
  ["upload", "clean", "dedupe", "workflow", "report"]

/-- JavaScript `findIndex` returning `-1` when no element matches. -/
def findIndexInt (p : α → Bool) (l : List α) : Int :=
  match findIndexAux? p l with
  | some i => (i : Int)
  | none => -1

/-- The per-step UI state derived by `getStepStatus`. -/
inductive StepState where
  | completed
  | processing
  | error
  | pending
deriving DecidableEq, Repr

/-- `getStepStatus` (ProcessingStatus.tsx).  The JavaScript `if` chain falls
through from the `status === 'failed'` block when neither inner branch
returns; the fall-through is made explicit here as the trailing branches. -/
def getStepStatus (currentStep : String) (status : String) (stepId : String) :
    StepState :=
  let stepIndex := findIndexInt (fun s => s == stepId) steps
  let currentIndex := findIndexInt (fun s => s == currentStep) steps
  if status == "failed" && currentStep == "error" then
    if stepIndex == (steps.length : Int) - 1 then StepState.error
    else if stepIndex < (steps.length : Int) - 1 then StepState.completed
    else StepState.pending
  else if status == "failed" && stepIndex == currentIndex then StepState.error
  else if currentStep == "completed" && status == "completed" then
    StepState.completed
  else if stepIndex < currentIndex
      || (stepIndex == currentIndex && status == "completed") then
    StepState.completed
  else if stepIndex == currentIndex && status == "processing" then
    StepState.processing
  else StepState.pending

/-! ## Observer-side event handling (App.tsx, `handleProgress`) -/

/-- `ProcessingState` (App.tsx): the observer's view of the running job. -/
structure ProcessingState where
  processingId : Option Nat
  uploadId : Option Nat
  currentStep : String
  status : String
  progress : Nat
  message : Option String
  errorMessage : Option String
deriving DecidableEq, Repr

/-- One SSE payload as consumed by `handleProgress` (`data.type` selects the
switch branch). -/
structure SseData where
  type : String
  upload_id : Option Nat
  current_step : String
  status : String
  progress : Nat
  message : Option String
  error_message : Option String
deriving DecidableEq, Repr

/-- The App-level observer state: the `processingState` and whether the SSE
channel (`eventSourceRef`) is still open. -/
structure AppState where
  ps : ProcessingState
  channelOpen : Bool
deriving DecidableEq, Repr

/-- `handleProgress` (App.tsx): the `switch (data.type)` on an SSE event.
`connected` is a no-op; `progress` overwrites the observed fields;
`finished` closes the channel; `error` and `timeout` mark the observer state
failed and close the channel (the async statistics fetch and cache insertion
of the completed branch go through `CacheService.addReport`, treated
separately). -/
def handleProgress (data : SseData) (st : AppState) : AppState :=
  match data.type with
  | "connected" => st
  | "progress" =>
      { st with ps :=
          { st.ps with
            uploadId := data.upload_id
            currentStep := data.current_step
            status := data.status
            progress := data.progress
            message := data.message
            errorMessage := data.error_message } }
  | "finished" => { st with channelOpen := false }
  | "error" =>
      { st with
        ps := { st.ps with status := "failed", errorMessage := data.message }
        channelOpen := false }
  | "timeout" =>
      { st with
        ps := { st.ps with
                status := "failed"
                errorMessage := some (data.message.getD "SSE连接超时") }
        channelOpen := false }
  | _ => st

/-! ## Server-side job model

The FastAPI backend (Job Store, Pipeline Orchestrator, Progress Broadcaster)
is not part of the repository snapshot — only its frontend callers and the
database schema are.  The definitions below are therefore modelled from the
specification (§3, §4.1, §4.3, §5). -/

/-- Job status (§3). -/
inductive JStatus where
  | pending
  | running
  | completed
  | failed
deriving DecidableEq, Repr

/-- Job stage (§3): the ordered pipeline stages plus the terminal
`completed` marker and the `error` sentinel. -/
inductive JStage where
  | intake
  | cleaning
  | deduplication
  | analysis
  | rendering
  | completedStage
  | errorStage
deriving DecidableEq, Repr

/-- Job Record (§3): the unit of state tracked per upload. -/
structure JobRecord where
  jobId : Nat
  stage : JStage
  status : JStatus
  progress : Nat
  message : Option String
  errorDetail : Option String
  createdAt : Nat
  updatedAt : Nat
deriving DecidableEq, Repr

/-- A partial update passed to the Job Store `merge` (§4.1): only the
supplied fields are applied. -/
structure JobUpdate where
  stage : Option JStage
  status : Option JStatus
  progress : Option Nat
  message : Option (Option String)
  errorDetail : Option (Option String)
deriving DecidableEq, Repr

/-- Apply the supplied fields of a partial update and stamp `updatedAt`. -/
def applyUpdate (r : JobRecord) (u : JobUpdate) (now : Nat) : JobRecord :=
  { r with
    stage := u.stage.getD r.stage
    status := u.status.getD r.status
    progress := u.progress.getD r.progress
    message := u.message.getD r.message
    errorDetail := u.errorDetail.getD r.errorDetail
    updatedAt := now }

/-- Modelled from the spec: the Job Store `merge` (§4.1), whose backend code
is absent from the snapshot.  It applies only the supplied fields, stamps
`updatedAt`, and enforces the progress-monotonicity and terminal-immutability
invariants, failing with `InvalidTransition` when they would be violated. -/
def merge (r : JobRecord) (u : JobUpdate) (now : Nat) :
    Except String JobRecord :=
  if r.status = JStatus.completed ∨ r.status = JStatus.failed then
    Except.error "InvalidTransition"
  else
    match u.progress with
    | some p =>
        if p < r.progress then Except.error "InvalidTransition"
        else Except.ok (applyUpdate r u now)
    | none => Except.ok (applyUpdate r u now)

/-- The Job Record after a `merge` attempt: a rejected merge
(`InvalidTransition`) leaves the stored record unchanged. -/
def applyMerge (r : JobRecord) (u : JobUpdate) (now : Nat) : JobRecord :=
  match merge r u now with
  | Except.ok r2 => r2
  | Except.error _ => r

/-- The successive Job Record snapshots observed over a sequence of `merge`
calls, starting from `r0`. -/
def mergeTrace (r0 : JobRecord) (us : List (JobUpdate × Nat)) :
    List JobRecord :=
  List.scanl (fun r p => applyMerge r p.1 p.2) r0 us

/-! ## Progress Broadcaster events -/

/-- The event vocabulary of the Broadcaster (§4.3). -/
inductive Event where
  | connected
  | progressEv (r : JobRecord)
  | errorEv (d : Option String)
  | timeoutEv
  | finished
deriving DecidableEq, Repr

/-- Whether an event is the `finished` terminator. -/
def isFinished : Event → Bool
  | Event.finished => true
  | _ => false

/-- Modelled from the spec: the Progress Broadcaster (§4.3), whose backend
code is absent from the snapshot.  Each merged snapshot is fanned out as a
`progress` event in merge order; the first terminal snapshot additionally
produces `error` (on failure) and the closing `finished` event, after which
the stream ends. -/
def eventsFor : List JobRecord → List Event
  | [] => []
  | r :: rs =>
      if r.status = JStatus.failed then
        [Event.progressEv r, Event.errorEv r.errorDetail, Event.finished]
      else if r.status = JStatus.completed then
        [Event.progressEv r, Event.finished]
      else Event.progressEv r :: eventsFor rs

/-- The full event sequence delivered to one subscriber: `connected` first
(emitted immediately on subscription), then the per-merge events. -/
def subscriptionStream (trace : List JobRecord) : List Event :=
  Event.connected :: eventsFor trace

/-- The combined system state for one job and one subscriber: the
server-side Job Record and the observer's client state. -/
structure SystemState where
  job : JobRecord
  client : AppState
deriving DecidableEq, Repr

/-- Modelled from the spec: delivery of one Broadcaster event to a
subscription (§4.3, §5) runs the observer's `handleProgress`; the Job Record
is owned by the server-side Job Store and is not part of event delivery. -/
def deliverEvent (s : SystemState) (d : SseData) : SystemState :=
  { s with client := handleProgress d s.client }

/-! ## Sample values used by the concrete witnesses -/

/-- A cached report with the given `uploadId` and trivial bookkeeping. -/
def sampleReport (i : Nat) : CachedReport :=
  { id := "", uploadId := i, filename := "", uploadTime := "",
    completedTime := "", fileSize := 0,
    stats := { totalRows := 0, cleanedRows := 0, duplicatesRemoved := 0,
               domesticSources := 0, foreignSources := 0 } }

/-- A running Job Record at the given progress. -/
def sampleJob (p : Nat) : JobRecord :=
  { jobId := 1, stage := JStage.cleaning, status := JStatus.running,
    progress := p, message := none, errorDetail := none,
    createdAt := 0, updatedAt := 0 }

/-- A partial update advancing only the progress. -/
def sampleUpdate (p : Nat) : JobUpdate :=
  { stage := none, status := none, progress := some p, message := none,
    errorDetail := none }

/-- An SSE payload of the given event type carrying no state. -/
def sampleData (ty : String) : SseData :=
  { type := ty, upload_id := none, current_step := "", status := "",
    progress := 0, message := none, error_message := none }

/-! ## Helper lemmas about the History Cache -/

theorem findIndexAux?_eq_none {α : Type} {p : α → Bool} :
    ∀ {l : List α}, (∀ x ∈ l, p x = false) → findIndexAux? p l = none
  | [], _ => rfl
  | x :: xs, h => by
      have hx : p x = false := h x (List.mem_cons_self x xs)
      have hxs : findIndexAux? p xs = none :=
        findIndexAux?_eq_none (fun y hy => h y (List.mem_cons_of_mem _ hy))
      simp [findIndexAux?, hx, hxs]

theorem findIndexAux?_eq_some_of_mem {α : Type} (p : α → Bool) :
    ∀ (l : List α), (∃ x ∈ l, p x = true) → ∃ i, findIndexAux? p l = some i
  | [], h => absurd h (by simp)
  | x :: xs, h => by
      by_cases hx : p x
      · exact ⟨0, by simp [findIndexAux?, hx]⟩
      · obtain ⟨y, hy, hpy⟩ := h
        have hyx : y ∈ xs := by
          cases List.mem_cons.mp hy with
          | inl he => exact absurd (he ▸ hpy) (by simp [hx])
          | inr h2 => exact h2
        obtain ⟨i, hi⟩ := findIndexAux?_eq_some_of_mem p xs ⟨y, hyx, hpy⟩
        exact ⟨i + 1, by simp [findIndexAux?, hx, hi]⟩

/-- Inserting a report whose `uploadId` is fresh for the cache prepends it
and truncates to capacity. -/
theorem addReport_fresh {reports : List CachedReport} {report : CachedReport}
    (h : ∀ r ∈ reports, r.uploadId ≠ report.uploadId) :
    CacheService.addReport reports report
      = (report :: reports).take MAX_CACHE_SIZE := by
  have hn : findIndexAux? (fun r => r.uploadId == report.uploadId) reports
      = none := by
    apply findIndexAux?_eq_none
    intro x hx
    exact beq_eq_false_iff_ne.mpr (h x hx)
  simp only [CacheService.addReport, hn]
  by_cases hlen : MAX_CACHE_SIZE < (report :: reports).length
  · simp [hlen]
  · simp only [if_neg hlen]
    rw [List.take_of_length_le (Nat.le_of_not_lt hlen)]

/-- One upsert never pushes the cache beyond capacity. -/
theorem addReport_length_le {reports : List CachedReport}
    (report : CachedReport) (h : reports.length ≤ MAX_CACHE_SIZE) :
    (CacheService.addReport reports report).length ≤ MAX_CACHE_SIZE := by
  cases hidx : findIndexAux? (fun r => r.uploadId == report.uploadId) reports
      with
  | some i => simpa [CacheService.addReport, hidx] using h
  | none =>
      simp only [CacheService.addReport, hidx]
      by_cases hlen : MAX_CACHE_SIZE < (report :: reports).length
      · simp only [if_pos hlen, List.length_take]
        exact Nat.min_le_left _ _
      · simp only [if_neg hlen]
        exact Nat.le_of_not_lt hlen

/-- Any sequence of upserts keeps a within-capacity cache within capacity. -/
theorem foldl_addReport_length_le :
    ∀ (l : List CachedReport) (cache : List CachedReport),
      cache.length ≤ MAX_CACHE_SIZE →
      (l.foldl CacheService.addReport cache).length ≤ MAX_CACHE_SIZE
  | [], _, h => h
  | r :: rs, cache, h => by
      rw [List.foldl_cons]
      exact foldl_addReport_length_le rs _ (addReport_length_le r h)

/-- Folding distinct-id upserts over a FIFO-shaped cache yields the reversed
insertion order truncated to capacity. -/
theorem foldl_addReport_map :
    ∀ (inserts : List CachedReport) (cache : List CachedReport)
      (processed : List Nat),
      cache.map (fun r => r.uploadId)
          = processed.reverse.take MAX_CACHE_SIZE →
      (∀ r ∈ inserts, r.uploadId ∉ processed) →
      (inserts.map (fun r => r.uploadId)).Nodup →
      (inserts.foldl CacheService.addReport cache).map (fun r => r.uploadId)
        = (processed ++ inserts.map (fun r => r.uploadId)).reverse.take
            MAX_CACHE_SIZE
  | [], cache, processed, hc, _, _ => by simpa using hc
  | r :: rs, cache, processed, hc, hfresh, hnd => by
      have hnd2 : r.uploadId ∉ rs.map (fun x => x.uploadId)
          ∧ (rs.map (fun x => x.uploadId)).Nodup := by
        rw [List.map_cons] at hnd
        exact List.nodup_cons.mp hnd
      have hrc : ∀ x ∈ cache, x.uploadId ≠ r.uploadId := by
        intro x hx he
        have h1 : x.uploadId ∈ cache.map (fun y => y.uploadId) :=
          List.mem_map_of_mem _ hx
        rw [hc] at h1
        have h2 : x.uploadId ∈ processed :=
          List.mem_reverse.mp (List.take_subset _ _ h1)
        exact hfresh r (List.mem_cons_self r rs) (he ▸ h2)
      have hstep : CacheService.addReport cache r
          = (r :: cache).take MAX_CACHE_SIZE := addReport_fresh hrc
      have hc2 : (CacheService.addReport cache r).map (fun x => x.uploadId)
          = (processed ++ [r.uploadId]).reverse.take MAX_CACHE_SIZE := by
        rw [hstep, List.map_take, List.map_cons, hc, List.reverse_append]
        have h50 : MAX_CACHE_SIZE = 49 + 1 := rfl
        simp only [List.reverse_cons, List.reverse_nil, List.nil_append,
          List.singleton_append]
        rw [h50, List.take_succ_cons, List.take_succ_cons, List.take_take]
        norm_num
      have hf2 : ∀ x ∈ rs, x.uploadId ∉ processed ++ [r.uploadId] := by
        intro x hx
        have h1 : x.uploadId ∉ processed :=
          hfresh x (List.mem_cons_of_mem _ hx)
        have h2 : x.uploadId ≠ r.uploadId := by
          intro he
          exact hnd2.1 (he ▸ List.mem_map_of_mem _ hx)
        simp [List.mem_append, h1, h2]
      have hmain :=
        foldl_addReport_map rs (CacheService.addReport cache r)
          (processed ++ [r.uploadId]) hc2 hf2 hnd2.2
      rw [List.foldl_cons]
      simpa [List.map_cons, List.append_assoc] using hmain

/-- Upserting an `uploadId` already present (uniquely) in the cache rewrites
exactly the matching entry in place. -/
theorem addReport_replace {cache : List CachedReport} {report : CachedReport}
    (hnd : (cache.map (fun r => r.uploadId)).Nodup)
    (hmem : report.uploadId ∈ cache.map (fun r => r.uploadId)) :
    CacheService.addReport cache report
      = cache.map
          (fun r => if r.uploadId = report.uploadId then report else r) := by
  induction cache with
  | nil => simp at hmem
  | cons c cs ih =>
      rw [List.map_cons] at hnd
      obtain ⟨hn1, hn2⟩ := List.nodup_cons.mp hnd
      by_cases hcr : c.uploadId = report.uploadId
      · have hidx : findIndexAux?
            (fun r => r.uploadId == report.uploadId) (c :: cs) = some 0 := by
          simp [findIndexAux?, hcr]
        have hcs : ∀ x ∈ cs,
            (if x.uploadId = report.uploadId then report else x) = x := by
          intro x hx
          have hne : x.uploadId ≠ report.uploadId := by
            intro he
            exact hn1 (hcr ▸ he ▸ List.mem_map_of_mem (fun y => y.uploadId) hx)
          simp [hne]
        have hmap : cs.map
            (fun r => if r.uploadId = report.uploadId then report else r)
            = cs := by
          rw [List.map_congr_left hcs]
          exact List.map_id' cs
        simp only [CacheService.addReport, hidx, List.map_cons, if_pos hcr,
          hmap]
        rfl
      · have hmem2 : report.uploadId ∈ cs.map (fun r => r.uploadId) := by
          rw [List.map_cons] at hmem
          cases List.mem_cons.mp hmem with
          | inl he => exact absurd he.symm hcr
          | inr h2 => exact h2
        obtain ⟨x, hx, hxe⟩ := List.mem_map.mp hmem2
        obtain ⟨i, hi⟩ := findIndexAux?_eq_some_of_mem
          (fun r => r.uploadId == report.uploadId) cs ⟨x, hx, by simp [hxe]⟩
        have hpc : (c.uploadId == report.uploadId) = false :=
          beq_eq_false_iff_ne.mpr hcr
        have hidx : findIndexAux?
            (fun r => r.uploadId == report.uploadId) (c :: cs)
            = some (i + 1) := by
          simp [findIndexAux?, hpc, hi]
        have hcs := ih hn2 hmem2
        rw [show CacheService.addReport cs report = cs.set i report from by
          simp [CacheService.addReport, hi]] at hcs
        simp only [CacheService.addReport, hidx, List.map_cons, if_neg hcr]
        show c :: cs.set i report = _
        rw [hcs]

/-! ## Helper lemmas about the job model and the Broadcaster -/

/-- A merge attempt never lowers the stored progress. -/
theorem applyMerge_progress_le (r : JobRecord) (u : JobUpdate) (t : Nat) :
    r.progress ≤ (applyMerge r u t).progress := by
  unfold applyMerge merge
  by_cases ht : r.status = JStatus.completed ∨ r.status = JStatus.failed
  · simp [ht]
  · simp only [if_neg ht]
    cases hp : u.progress with
    | none => simp [applyUpdate, hp]
    | some p =>
        by_cases hlt : p < r.progress
        · simp [hlt]
        · simp [hlt, applyUpdate, hp]
          exact Nat.le_of_not_lt hlt

/-- A merge attempt on a terminal record leaves it unchanged. -/
theorem applyMerge_terminal (r : JobRecord) (u : JobUpdate) (t : Nat)
    (h : r.status = JStatus.completed ∨ r.status = JStatus.failed) :
    applyMerge r u t = r := by
  unfold applyMerge merge
  simp [h]

theorem scanl_map_head {α β γ : Type} (f : α → β → α) (g : α → γ) (a : α)
    (l : List β) : ((List.scanl f a l).map g).head? = some (g a) := by
  cases l <;> rfl

theorem chain'_le_scanl {α β : Type} (f : α → β → α) (g : α → Nat)
    (hf : ∀ a b, g a ≤ g (f a b)) :
    ∀ (l : List β) (a : α),
      List.Chain' (fun x y => x ≤ y) ((List.scanl f a l).map g)
  | [], _ => by simp
  | b :: bs, a => by
      simp only [List.scanl_cons, List.nil_append, List.singleton_append,
        List.map_cons]
      refine (List.chain'_cons'.mpr ⟨?_, ?_⟩)
      · intro y hy
        have hh := scanl_map_head f g (f a b) bs
        rw [hh] at hy
        cases hy
        exact hf a b
      · exact chain'_le_scanl f g hf bs (f a b)

/-- Once the trace reaches a terminal snapshot, the Broadcaster's event list
contains exactly one `finished`, and it is the last element. -/
theorem eventsFor_finished :
    ∀ (trace : List JobRecord),
      (∃ r ∈ trace,
          r.status = JStatus.completed ∨ r.status = JStatus.failed) →
      (eventsFor trace).countP isFinished = 1
      ∧ (eventsFor trace).getLast? = some Event.finished
  | [], h => absurd h (by simp)
  | r :: rs, h => by
      by_cases hf : r.status = JStatus.failed
      · constructor
        · simp [eventsFor, hf, isFinished]
        · simp [eventsFor, hf]
      · by_cases hc : r.status = JStatus.completed
        · constructor
          · simp [eventsFor, hf, hc, isFinished]
          · simp [eventsFor, hf, hc]
        · have h2 : ∃ x ∈ rs,
              x.status = JStatus.completed ∨ x.status = JStatus.failed := by
            obtain ⟨x, hx, hx2⟩ := h
            cases List.mem_cons.mp hx with
            | inl he =>
                cases hx2 with
                | inl a => exact absurd (he ▸ a) hc
                | inr b => exact absurd (he ▸ b) hf
            | inr h3 => exact ⟨x, h3, hx2⟩
          obtain ⟨hcount, hlast⟩ := eventsFor_finished rs h2
          have hev : eventsFor (r :: rs) = Event.progressEv r :: eventsFor rs
              := by simp [eventsFor, hf, hc]
          have hne : eventsFor rs ≠ [] := by
            intro hnil
            rw [hnil] at hlast
            simp at hlast
          constructor
          · rw [hev, List.countP_cons]
            simp [isFinished, hcount]
          · obtain ⟨e, es, hes⟩ := List.exists_cons_of_ne_nil hne
            rw [hev, hes, List.getLast?_cons_cons, ← hes, hlast]

/-- `handleProgress` on a `finished` payload closes the channel. -/
theorem handleProgress_finished_closes (d : SseData) (st : AppState)
    (hd : d.type = "finished") :
    (handleProgress d st).channelOpen = false := by
  obtain ⟨ty, uid, cs, stt, pg, m, em⟩ := d
  dsimp only at hd
  subst hd
  rfl

/-- `handleProgress` on a `timeout` payload closes the channel. -/
theorem handleProgress_timeout_closes (d : SseData) (st : AppState)
    (hd : d.type = "timeout") :
    (handleProgress d st).channelOpen = false := by
  obtain ⟨ty, uid, cs, stt, pg, m, em⟩ := d
  dsimp only at hd
  subst hd
  rfl

/-! ## Claims -/

/-- C1: upserting more than 50 distinct `jobId`s into the History Cache,
starting from empty, leaves exactly 50 entries — the 50 most recently
inserted ids, newest first; every intermediate cache stays within 50
entries; and an insertion into a full cache evicts precisely the oldest
entry (the tail of the list, FIFO). -/
theorem history_cache_fifo_capacity
    (inserts pfx cache : List CachedReport) (r : CachedReport)
    (hnd : (inserts.map (fun x => x.uploadId)).Nodup)
    (hlen : MAX_CACHE_SIZE < inserts.length)
    (_hpfx : pfx <+: inserts)
    (hfull : cache.length = MAX_CACHE_SIZE)
    (hfresh : ∀ x ∈ cache, x.uploadId ≠ r.uploadId) :
    (inserts.foldl CacheService.addReport []).map (fun x => x.uploadId)
        = (inserts.map (fun x => x.uploadId)).reverse.take MAX_CACHE_SIZE
    ∧ (inserts.foldl CacheService.addReport []).length = MAX_CACHE_SIZE
    ∧ (pfx.foldl CacheService.addReport []).length ≤ MAX_CACHE_SIZE
    ∧ CacheService.addReport cache r = r :: cache.dropLast := by
  have hids : (inserts.foldl CacheService.addReport []).map
      (fun x => x.uploadId)
      = (inserts.map (fun x => x.uploadId)).reverse.take MAX_CACHE_SIZE := by
    have h := foldl_addReport_map inserts [] [] (by simp) (by simp) hnd
    simpa using h
  refine ⟨hids, ?_, ?_, ?_⟩
  · have h1 := congrArg List.length hids
    rw [List.length_map, List.length_take, List.length_reverse,
      List.length_map] at h1
    rw [h1]
    exact Nat.min_eq_left (Nat.le_of_lt hlen)
  · exact foldl_addReport_length_le pfx [] (by simp)
  · rw [addReport_fresh hfresh]
    have h50 : MAX_CACHE_SIZE = 49 + 1 := rfl
    rw [h50, List.take_succ_cons, List.dropLast_eq_take, hfull]
    norm_num [MAX_CACHE_SIZE]

/-- C1 witness: 51 distinct insertions behave as stated. -/
theorem history_cache_fifo_capacity_witness :
    (((((List.range 51).map sampleReport).map
          (fun x => x.uploadId)).Nodup)
      ∧ MAX_CACHE_SIZE < ((List.range 51).map sampleReport).length
      ∧ ((List.range 51).map sampleReport)
          <+: ((List.range 51).map sampleReport)
      ∧ ((List.range 50).map sampleReport).length = MAX_CACHE_SIZE
      ∧ (∀ x ∈ (List.range 50).map sampleReport,
          x.uploadId ≠ (sampleReport 1000).uploadId))
    ∧ ((((List.range 51).map sampleReport).foldl CacheService.addReport
          []).map (fun x => x.uploadId)
        = (((List.range 51).map sampleReport).map
            (fun x => x.uploadId)).reverse.take MAX_CACHE_SIZE
      ∧ (((List.range 51).map sampleReport).foldl CacheService.addReport
          []).length = MAX_CACHE_SIZE
      ∧ (((List.range 51).map sampleReport).foldl CacheService.addReport
          []).length ≤ MAX_CACHE_SIZE
      ∧ CacheService.addReport ((List.range 50).map sampleReport)
            (sampleReport 1000)
          = sampleReport 1000 :: ((List.range 50).map sampleReport).dropLast)
    := by
  refine ⟨⟨by decide, by decide, List.prefix_refl _, by decide, by decide⟩,
    history_cache_fifo_capacity ((List.range 51).map sampleReport)
      ((List.range 51).map sampleReport) ((List.range 50).map sampleReport)
      (sampleReport 1000) (by decide) (by decide) (List.prefix_refl _)
      (by decide) (by decide)⟩

/-- C2: upserting a report whose `jobId` (`uploadId`) is already present in
a duplicate-free cache replaces that entry in place — the result is the
pointwise rewrite of exactly the matching entry, and the size is
unchanged. -/
theorem history_cache_upsert_in_place
    (cache : List CachedReport) (report : CachedReport)
    (hnd : (cache.map (fun r => r.uploadId)).Nodup)
    (hmem : report.uploadId ∈ cache.map (fun r => r.uploadId)) :
    CacheService.addReport cache report
        = cache.map
            (fun r => if r.uploadId = report.uploadId then report else r)
    ∧ (CacheService.addReport cache report).length = cache.length := by
  have h := addReport_replace hnd hmem
  exact ⟨h, by rw [h, List.length_map]⟩

/-- C2 witness: replacing the entry for `uploadId = 2` with fresh stats. -/
theorem history_cache_upsert_in_place_witness :
    ((([sampleReport 1, sampleReport 2, sampleReport 3].map
          (fun r => r.uploadId)).Nodup)
      ∧ ({ sampleReport 2 with filename := "new.csv" }).uploadId
          ∈ [sampleReport 1, sampleReport 2, sampleReport 3].map
              (fun r => r.uploadId))
    ∧ (CacheService.addReport [sampleReport 1, sampleReport 2, sampleReport 3]
          { sampleReport 2 with filename := "new.csv" }
        = [sampleReport 1, sampleReport 2, sampleReport 3].map
            (fun r =>
              if r.uploadId
                  = ({ sampleReport 2 with filename := "new.csv" }).uploadId
              then { sampleReport 2 with filename := "new.csv" } else r)
      ∧ (CacheService.addReport
            [sampleReport 1, sampleReport 2, sampleReport 3]
            { sampleReport 2 with filename := "new.csv" }).length
          = [sampleReport 1, sampleReport 2, sampleReport 3].length) :=
  ⟨⟨by decide, by decide⟩,
    history_cache_upsert_in_place
      [sampleReport 1, sampleReport 2, sampleReport 3]
      { sampleReport 2 with filename := "new.csv" } (by decide) (by decide)⟩

/-- C3: delivering the Broadcaster's `timeout` event closes the
subscription channel while the underlying Job Record keeps its status,
stage and progress — the timeout is subscription-scoped, not job-fatal. -/
theorem timeout_subscription_scoped
    (s : SystemState) (d : SseData) (hd : d.type = "timeout") :
    (deliverEvent s d).client.channelOpen = false
    ∧ (deliverEvent s d).job = s.job
    ∧ (deliverEvent s d).job.status = s.job.status
    ∧ (deliverEvent s d).job.stage = s.job.stage
    ∧ (deliverEvent s d).job.progress = s.job.progress := by
  exact ⟨handleProgress_timeout_closes d s.client hd, rfl, rfl, rfl, rfl⟩

/-- C3 witness: a timeout delivered to a running job's subscriber. -/
theorem timeout_subscription_scoped_witness :
    ((sampleData "timeout").type = "timeout")
    ∧ ((deliverEvent
          { job := sampleJob 40,
            client := { ps := { processingId := some 1, uploadId := some 1,
                                currentStep := "clean",
                                status := "processing", progress := 40,
                                message := none, errorMessage := none },
                        channelOpen := true } }
          (sampleData "timeout")).client.channelOpen = false
      ∧ (deliverEvent
          { job := sampleJob 40,
            client := { ps := { processingId := some 1, uploadId := some 1,
                                currentStep := "clean",
                                status := "processing", progress := 40,
                                message := none, errorMessage := none },
                        channelOpen := true } }
          (sampleData "timeout")).job
        = ({ job := sampleJob 40,
             client := { ps := { processingId := some 1, uploadId := some 1,
                                 currentStep := "clean",
                                 status := "processing", progress := 40,
                                 message := none, errorMessage := none },
                         channelOpen := true } } : SystemState).job
      ∧ (deliverEvent
          { job := sampleJob 40,
            client := { ps := { processingId := some 1, uploadId := some 1,
                                currentStep := "clean",
                                status := "processing", progress := 40,
                                message := none, errorMessage := none },
                        channelOpen := true } }
          (sampleData "timeout")).job.status
        = ({ job := sampleJob 40,
             client := { ps := { processingId := some 1, uploadId := some 1,
                                 currentStep := "clean",
                                 status := "processing", progress := 40,
                                 message := none, errorMessage := none },
                         channelOpen := true } } : SystemState).job.status
      ∧ (deliverEvent
          { job := sampleJob 40,
            client := { ps := { processingId := some 1, uploadId := some 1,
                                currentStep := "clean",
                                status := "processing", progress := 40,
                                message := none, errorMessage := none },
                        channelOpen := true } }
          (sampleData "timeout")).job.stage
        = ({ job := sampleJob 40,
             client := { ps := { processingId := some 1, uploadId := some 1,
                                 currentStep := "clean",
                                 status := "processing", progress := 40,
                                 message := none, errorMessage := none },
                         channelOpen := true } } : SystemState).job.stage
      ∧ (deliverEvent
          { job := sampleJob 40,
            client := { ps := { processingId := some 1, uploadId := some 1,
                                currentStep := "clean",
                                status := "processing", progress := 40,
                                message := none, errorMessage := none },
                        channelOpen := true } }
          (sampleData "timeout")).job.progress
        = ({ job := sampleJob 40,
             client := { ps := { processingId := some 1, uploadId := some 1,
                                 currentStep := "clean",
                                 status := "processing", progress := 40,
                                 message := none, errorMessage := none },
                         channelOpen := true } } : SystemState).job.progress)
    :=
  ⟨rfl,
    timeout_subscription_scoped
      { job := sampleJob 40,
        client := { ps := { processingId := some 1, uploadId := some 1,
                            currentStep := "clean", status := "processing",
                            progress := 40, message := none,
                            errorMessage := none },
                    channelOpen := true } }
      (sampleData "timeout") rfl⟩

/-- C4: a merge never lowers progress while the job is not failed, a merge
against a terminal (completed or failed) record changes nothing — stage,
status and progress included — and the progress values along any sequence of
merges form a non-decreasing chain. -/
theorem merge_monotone_terminal
    (r1 r2 r0 : JobRecord) (u1 u2 : JobUpdate) (t1 t2 : Nat)
    (us : List (JobUpdate × Nat))
    (_h1 : r1.status ≠ JStatus.failed)
    (h2 : r2.status = JStatus.completed ∨ r2.status = JStatus.failed) :
    r1.progress ≤ (applyMerge r1 u1 t1).progress
    ∧ applyMerge r2 u2 t2 = r2
    ∧ (applyMerge r2 u2 t2).stage = r2.stage
    ∧ (applyMerge r2 u2 t2).status = r2.status
    ∧ (applyMerge r2 u2 t2).progress = r2.progress
    ∧ List.Chain' (fun a b => a ≤ b)
        ((mergeTrace r0 us).map (fun r => r.progress)) := by
  have hterm := applyMerge_terminal r2 u2 t2 h2
  refine ⟨applyMerge_progress_le r1 u1 t1, hterm, by rw [hterm],
    by rw [hterm], by rw [hterm], ?_⟩
  exact chain'_le_scanl _ _
    (fun a b => applyMerge_progress_le a b.1 b.2) us r0

/-- C4 witness: a running job merged twice, and a completed job that a
further merge cannot touch. -/
theorem merge_monotone_terminal_witness :
    ((sampleJob 10).status ≠ JStatus.failed
      ∧ (({ sampleJob 100 with status := JStatus.completed }).status
            = JStatus.completed
          ∨ ({ sampleJob 100 with status := JStatus.completed }).status
            = JStatus.failed))
    ∧ ((sampleJob 10).progress
          ≤ (applyMerge (sampleJob 10) (sampleUpdate 30) 1).progress
      ∧ applyMerge { sampleJob 100 with status := JStatus.completed }
            (sampleUpdate 99) 2
          = { sampleJob 100 with status := JStatus.completed }
      ∧ (applyMerge { sampleJob 100 with status := JStatus.completed }
            (sampleUpdate 99) 2).stage
          = ({ sampleJob 100 with status := JStatus.completed }).stage
      ∧ (applyMerge { sampleJob 100 with status := JStatus.completed }
            (sampleUpdate 99) 2).status
          = ({ sampleJob 100 with status := JStatus.completed }).status
      ∧ (applyMerge { sampleJob 100 with status := JStatus.completed }
            (sampleUpdate 99) 2).progress
          = ({ sampleJob 100 with status := JStatus.completed }).progress
      ∧ List.Chain' (fun a b => a ≤ b)
          ((mergeTrace (sampleJob 10)
              [(sampleUpdate 30, 1), (sampleUpdate 50, 2)]).map
            (fun r => r.progress))) :=
  ⟨⟨by decide, by decide⟩,
    merge_monotone_terminal (sampleJob 10)
      { sampleJob 100 with status := JStatus.completed } (sampleJob 10)
      (sampleUpdate 30) (sampleUpdate 99) 1 2
      [(sampleUpdate 30, 1), (sampleUpdate 50, 2)] (by decide) (by decide)⟩

/-- C5: once the job trace reaches a terminal snapshot, the subscriber's
event stream carries exactly one `finished` event and it is the last event
of the stream (so no progress, error or timeout event follows it); the
observer's `finished` handler then closes the channel. -/
theorem broadcaster_finished_last
    (trace : List JobRecord) (st : AppState) (d : SseData)
    (h : ∃ r ∈ trace,
        r.status = JStatus.completed ∨ r.status = JStatus.failed)
    (hd : d.type = "finished") :
    (subscriptionStream trace).countP isFinished = 1
    ∧ (subscriptionStream trace).getLast? = some Event.finished
    ∧ (handleProgress d st).channelOpen = false := by
  obtain ⟨hcount, hlast⟩ := eventsFor_finished trace h
  have hne : eventsFor trace ≠ [] := by
    intro hnil
    rw [hnil] at hlast
    simp at hlast
  refine ⟨?_, ?_, handleProgress_finished_closes d st hd⟩
  · rw [subscriptionStream, List.countP_cons]
    simp [isFinished, hcount]
  · obtain ⟨e, es, hes⟩ := List.exists_cons_of_ne_nil hne
    rw [subscriptionStream, hes, List.getLast?_cons_cons, ← hes, hlast]

/-- C5 witness: a two-snapshot trace ending in completion. -/
theorem broadcaster_finished_last_witness :
    ((∃ r ∈ [sampleJob 40,
          { sampleJob 100 with status := JStatus.completed }],
        r.status = JStatus.completed ∨ r.status = JStatus.failed)
      ∧ (sampleData "finished").type = "finished")
    ∧ ((subscriptionStream [sampleJob 40,
          { sampleJob 100 with status := JStatus.completed }]).countP
            isFinished = 1
      ∧ (subscriptionStream [sampleJob 40,
          { sampleJob 100 with status := JStatus.completed }]).getLast?
          = some Event.finished
      ∧ (handleProgress (sampleData "finished")
          { ps := { processingId := none, uploadId := none,
                    currentStep := "clean", status := "processing",
                    progress := 40, message := none, errorMessage := none },
            channelOpen := true }).channelOpen = false) :=
  ⟨⟨by decide, rfl⟩,
    broadcaster_finished_last
      [sampleJob 40, { sampleJob 100 with status := JStatus.completed }]
      { ps := { processingId := none, uploadId := none,
                currentStep := "clean", status := "processing",
                progress := 40, message := none, errorMessage := none },
        channelOpen := true }
      (sampleData "finished") (by decide) rfl⟩

/-- C6: `getRecentReports` returns at most `limit` entries, they are the
cached entries most-recently-inserted-first (the prefix of the
reverse-insertion-ordered cache), and the default limit is 10. -/
theorem history_cache_list_recent
    (inserts : List CachedReport) (limit : Nat) (store : Option String)
    (decode : String → Option (List CachedReport))
    (hnd : (inserts.map (fun x => x.uploadId)).Nodup)
    (hstore : CacheService.getCachedReports store decode
        = inserts.foldl CacheService.addReport []) :
    (CacheService.getRecentReports store decode limit).length ≤ limit
    ∧ (CacheService.getRecentReports store decode limit).map
          (fun x => x.uploadId)
        = ((inserts.map (fun x => x.uploadId)).reverse.take
            MAX_CACHE_SIZE).take limit
    ∧ CacheService.getRecentReportsDefault store decode
        = CacheService.getRecentReports store decode 10 := by
  refine ⟨?_, ?_, rfl⟩
  · rw [CacheService.getRecentReports, List.length_take]
    exact Nat.min_le_left _ _
  · rw [CacheService.getRecentReports, hstore]
    have hids : (inserts.foldl CacheService.addReport []).map
        (fun x => x.uploadId)
        = (inserts.map (fun x => x.uploadId)).reverse.take MAX_CACHE_SIZE
        := by
      have h := foldl_addReport_map inserts [] [] (by simp) (by simp) hnd
      simpa using h
    rw [List.map_take, hids]

/-- C6 witness: three distinct insertions read back with limit 2. -/
theorem history_cache_list_recent_witness :
    ((([sampleReport 1, sampleReport 2, sampleReport 3].map
          (fun x => x.uploadId)).Nodup)
      ∧ CacheService.getCachedReports (some "cache")
          (fun _ => some
            ([sampleReport 1, sampleReport 2, sampleReport 3].foldl
              CacheService.addReport []))
        = [sampleReport 1, sampleReport 2, sampleReport 3].foldl
            CacheService.addReport [])
    ∧ ((CacheService.getRecentReports (some "cache")
          (fun _ => some
            ([sampleReport 1, sampleReport 2, sampleReport 3].foldl
              CacheService.addReport [])) 2).length ≤ 2
      ∧ (CacheService.getRecentReports (some "cache")
          (fun _ => some
            ([sampleReport 1, sampleReport 2, sampleReport 3].foldl
              CacheService.addReport [])) 2).map (fun x => x.uploadId)
        = (([sampleReport 1, sampleReport 2, sampleReport 3].map
            (fun x => x.uploadId)).reverse.take MAX_CACHE_SIZE).take 2
      ∧ CacheService.getRecentReportsDefault (some "cache")
          (fun _ => some
            ([sampleReport 1, sampleReport 2, sampleReport 3].foldl
              CacheService.addReport []))
        = CacheService.getRecentReports (some "cache")
          (fun _ => some
            ([sampleReport 1, sampleReport 2, sampleReport 3].foldl
              CacheService.addReport [])) 10) :=
  ⟨⟨by decide, by decide⟩,
    history_cache_list_recent
      [sampleReport 1, sampleReport 2, sampleReport 3] 2 (some "cache")
      (fun _ => some
        ([sampleReport 1, sampleReport 2, sampleReport 3].foldl
          CacheService.addReport [])) (by decide) (by decide)⟩

/-- C7: a dropped file that is not a CSV (wrong MIME type and wrong
extension) is rejected at intake: the validation alert is raised, no file
becomes selected, confirming afterwards invokes no upload, and the
previously selected file and dialog state are untouched. -/
theorem upload_rejects_non_csv
    (file : UploadFile) (s : FileUploadState)
    (h1 : file.type ≠ "text/csv")
    (h2 : strEndsWith file.name ".csv" = false) :
    (onDrop [file] initialFileUploadState).selectedFile = none
    ∧ (onDrop [file] initialFileUploadState).alerts = ["请上传CSV格式的文件"]
    ∧ (handleConfirmUpload (onDrop [file] initialFileUploadState) []).2 = []
    ∧ (onDrop [file] s).selectedFile = s.selectedFile
    ∧ (onDrop [file] s).showConfirm = s.showConfirm := by
  have ht : (file.type == "text/csv") = false := beq_eq_false_iff_ne.mpr h1
  have hcond : (file.type == "text/csv" || strEndsWith file.name ".csv")
      = false := by
    rw [ht, h2]
    rfl
  refine ⟨?_, ?_, ?_, ?_, ?_⟩ <;>
    simp [onDrop, hcond, initialFileUploadState, handleConfirmUpload]

/-- C7 witness: dropping a plain-text file. -/
theorem upload_rejects_non_csv_witness :
    (({ name := "data.txt", type := "text/plain" } : UploadFile).type
        ≠ "text/csv"
      ∧ strEndsWith
          ({ name := "data.txt", type := "text/plain" } : UploadFile).name
          ".csv" = false)
    ∧ ((onDrop [{ name := "data.txt", type := "text/plain" }]
          initialFileUploadState).selectedFile = none
      ∧ (onDrop [{ name := "data.txt", type := "text/plain" }]
          initialFileUploadState).alerts = ["请上传CSV格式的文件"]
      ∧ (handleConfirmUpload
          (onDrop [{ name := "data.txt", type := "text/plain" }]
            initialFileUploadState) []).2 = []
      ∧ (onDrop [{ name := "data.txt", type := "text/plain" }]
          initialFileUploadState).selectedFile
        = initialFileUploadState.selectedFile
      ∧ (onDrop [{ name := "data.txt", type := "text/plain" }]
          initialFileUploadState).showConfirm
        = initialFileUploadState.showConfirm) :=
  ⟨⟨by decide, by decide⟩,
    upload_rejects_non_csv { name := "data.txt", type := "text/plain" }
      initialFileUploadState (by decide) (by decide)⟩

/-- C8: removing a `jobId` from the History Cache keeps exactly the entries
with a different `uploadId`, in their original relative order (a sublist of
the cache), and removing an absent id changes nothing. -/
theorem history_cache_remove_frame (cache : List CachedReport) (uid : Nat) :
    (∀ e ∈ CacheService.removeReport cache uid, e.uploadId ≠ uid)
    ∧ (CacheService.removeReport cache uid).Sublist cache
    ∧ (∀ e ∈ cache, e.uploadId ≠ uid →
        e ∈ CacheService.removeReport cache uid)
    ∧ ((∀ e ∈ cache, e.uploadId ≠ uid) →
        CacheService.removeReport cache uid = cache) := by
  refine ⟨?_, ?_, ?_, ?_⟩
  · intro e he
    have hp := List.of_mem_filter he
    simpa using hp
  · exact List.filter_sublist _
  · intro e he hne
    exact List.mem_filter.mpr ⟨he, by simpa using hne⟩
  · intro h
    apply List.filter_eq_self.mpr
    intro a ha
    simpa using h a ha

/-- C8 witness: removing `uploadId = 2` from a three-entry cache. -/
theorem history_cache_remove_frame_witness :
    (∀ e ∈ CacheService.removeReport
        [sampleReport 1, sampleReport 2, sampleReport 3] 2,
      e.uploadId ≠ 2)
    ∧ (CacheService.removeReport
        [sampleReport 1, sampleReport 2, sampleReport 3] 2).Sublist
        [sampleReport 1, sampleReport 2, sampleReport 3]
    ∧ (∀ e ∈ [sampleReport 1, sampleReport 2, sampleReport 3],
        e.uploadId ≠ 2 →
          e ∈ CacheService.removeReport
            [sampleReport 1, sampleReport 2, sampleReport 3] 2)
    ∧ ((∀ e ∈ [sampleReport 1, sampleReport 2, sampleReport 3],
          e.uploadId ≠ 2) →
        CacheService.removeReport
            [sampleReport 1, sampleReport 2, sampleReport 3] 2
          = [sampleReport 1, sampleReport 2, sampleReport 3]) :=
  history_cache_remove_frame [sampleReport 1, sampleReport 2, sampleReport 3]
    2

/-- C9: with `status = 'failed'` and the sentinel `currentStep = 'error'`,
the derived per-step state is `completed` for every pipeline step except the
last and `error` for the last step (`report`), whatever step was actually
active. -/
theorem step_status_global_error (stepId : String) (h : stepId ∈ steps) :
    getStepStatus "error" "failed" stepId
      = if stepId = "report" then StepState.error else StepState.completed
    := by
  simp only [steps, List.mem_cons, List.not_mem_nil, or_false] at h
  rcases h with rfl | rfl | rfl | rfl | rfl
  all_goals decide

/-- C9 witness: the last step derives `error`. -/
theorem step_status_global_error_witness :
    ("report" ∈ steps)
    ∧ getStepStatus "error" "failed" "report"
        = if "report" = "report" then StepState.error
          else StepState.completed :=
  ⟨by decide, step_status_global_error "report" (by decide)⟩

/-- C10: reading the History Cache is total — an absent backing store and an
unparseable one both decode to the empty list, for `getReports`,
`getRecentReports` and `getReport` alike. -/
theorem history_cache_reads_total
    (decode : String → Option (List CachedReport)) (s : String)
    (limit n : Nat) (hbad : decode s = none) :
    CacheService.getReports none decode = []
    ∧ CacheService.getReports (some s) decode = []
    ∧ CacheService.getRecentReports none decode limit = []
    ∧ CacheService.getRecentReports (some s) decode limit = []
    ∧ CacheService.getReport none decode n = none
    ∧ CacheService.getReport (some s) decode n = none := by
  have hc : CacheService.getCachedReports (some s) decode = [] := by
    rw [CacheService.getCachedReports]
    by_cases hs : s = ""
    · simp [hs]
    · simp [hs, hbad]
  refine ⟨rfl, hc, ?_, ?_, rfl, ?_⟩
  · simp [CacheService.getRecentReports, CacheService.getCachedReports]
  · rw [CacheService.getRecentReports, hc]
    simp
  · rw [CacheService.getReport, hc]
    rfl

/-- C10 witness: a decoder that always fails, on the string `"bad"`. -/
theorem history_cache_reads_total_witness :
    ((fun (_ : String) => (none : Option (List CachedReport))) "bad" = none)
    ∧ (CacheService.getReports none
          (fun _ => (none : Option (List CachedReport))) = []
      ∧ CacheService.getReports (some "bad")
          (fun _ => (none : Option (List CachedReport))) = []
      ∧ CacheService.getRecentReports none
          (fun _ => (none : Option (List CachedReport))) 3 = []
      ∧ CacheService.getRecentReports (some "bad")
          (fun _ => (none : Option (List CachedReport))) 3 = []
      ∧ CacheService.getReport none
          (fun _ => (none : Option (List CachedReport))) 7 = none
      ∧ CacheService.getReport (some "bad")
          (fun _ => (none : Option (List CachedReport))) 7 = none) :=
  ⟨rfl,
    history_cache_reads_total
      (fun _ => (none : Option (List CachedReport))) "bad" 3 7 rfl⟩

end SSEA
